import Mathlib

/-!
Verification of the release tooling under dev-tools/ (build_release.py and the
release package) against its natural-language specification.

The Python code is shallowly embedded:
  * strings are lists of characters (List Char), a file is a list of lines;
  * Python str.replace is the executable function listReplace below;
  * fallible code returns Except or Option, raised exceptions are PyError values;
  * the stateful orchestrator of build_release.py is embedded as an EStateM
    computation over an explicit repository state (branch heads, tags, the
    checked-out branch), with an optional injected external-command failure.

The module release/utils/run.py is not part of src/; per its callers and the
specification it runs an external command and raises RuntimeError on a
non-zero exit, which is how external commands are modelled throughout.
-/

namespace ReleaseTool

/-- Characters of a string literal; Python strings are embedded as List Char. -/
def strL (s : String) : List Char := s.toList

/-- Fuel-indexed core of Python str.replace. At each position, if the pattern
is a (non-empty) prefix of the remaining input, the replacement is emitted and
scanning continues after the pattern occurrence (the emitted replacement is not
rescanned); otherwise one character is copied. The fuel argument only makes the
recursion structural; listReplace always supplies enough fuel. -/
def replAux (p r : List Char) : Nat → List Char → List Char
  | 0, s => s
  | _ + 1, [] => []
  | f + 1, c :: cs =>
    if p ≠ [] ∧ p.isPrefixOf (c :: cs) then
      r ++ replAux p r f ((c :: cs).drop p.length)
    else
      c :: replAux p r f cs

/-- Python str.replace pattern r (all non-overlapping occurrences, leftmost
first). The patterns used by the release tool are never empty, so the p = []
guard in replAux is never taken on real inputs. -/
def listReplace (p r s : List Char) : List Char := replAux p r s.length s

/-- Whether p occurs as a contiguous substring of s (Python: p in s). -/
def occursB (p : List Char) : List Char → Bool
  | [] => p.isPrefixOf []
  | c :: cs => p.isPrefixOf (c :: cs) || occursB p cs

/-- t has no non-trivial border: no proper non-empty prefix of t is also a
suffix of t. Self-overlap of a replaced pattern is the one situation in which
chained str.replace calls can interfere; the version tags used by the release
tool are borderless. -/
def borderlessB (t : List Char) : Bool :=
  (List.range t.length).all fun L => (L == 0) || (t.take L != t.drop (t.length - L))

/-- Number of positions of s at which p occurs (occurrences counted with
overlaps; the patterns counted below cannot overlap themselves). -/
def countOccPos (p s : List Char) : Nat :=
  ((List.range (s.length + 1)).filter fun i => p.isPrefixOf (s.drop i)).length

/-! ## release/fileupdater/updater.py -/

/-- The read-and-rewrite loop of process_file (updater.py lines 45-50): every
line of the old file is passed through the callback and written to the
temporary file, and the modified flag records whether some callback output
differed from its input line (modified = modified or (new_line != line)). -/
def processLines (cb : List Char → List Char) : List (List Char) → List (List Char) × Bool
  | [] => ([], false)
  | l :: ls =>
    let nl := cb l
    let r := processLines cb ls
    (nl :: r.1, (nl != l) || r.2)

/-- Observable result of process_file: the lines of file_path after the call,
the returned boolean, and whether the mkstemp temporary file is left behind. -/
structure FileResult where
  content : List (List Char)
  replaced : Bool
  tmpLeft : Bool
  deriving DecidableEq, Repr

/-- updater.process_file (updater.py lines 42-61): write the callback output
for every line to a temporary file; if some line changed, remove the original
and move the temporary file over it, returning True; otherwise remove the
temporary file and return False. -/
def process_file (lines : List (List Char)) (cb : List Char → List Char) : FileResult :=
  let r := processLines cb lines
  if r.2 then
    { content := r.1, replaced := true, tmpLeft := false }
  else
    { content := lines, replaced := false, tmpLeft := false }

/-! ## release/documentation/doc_update.py -/

/-- The released version tag, the replacement written by remove_maven_snapshot
(doc_update.py line 25). -/
def verTag (release : List Char) : List Char :=
  strL "<version>" ++ release ++ strL "</version>"

/-- The snapshot version tag, the pattern of remove_maven_snapshot
(doc_update.py line 24) and the replacement of add_maven_snapshot (line 36). -/
def verTagSnap (version : List Char) : List Char :=
  strL "<version>" ++ version ++ strL "-SNAPSHOT</version>"

/-- doc_update.remove_maven_snapshot (doc_update.py lines 23-30): rewrite the
pom file, replacing every occurrence of the snapshot tag of the release by the
plain release tag on every line, through updater.process_file. -/
def remove_maven_snapshot (release : List Char) (pom : List (List Char)) : List (List Char) :=
  (process_file pom fun line => listReplace (verTagSnap release) (verTag release) line).content

/-- doc_update.add_maven_snapshot (doc_update.py lines 34-41): rewrite the pom
file, replacing every occurrence of the plain release tag by the snapshot tag
of the next snapshot version on every line, through updater.process_file. -/
def add_maven_snapshot (release snapshot : List Char) (pom : List (List Char)) : List (List Char) :=
  (process_file pom fun line => listReplace (verTag release) (verTagSnap snapshot) line).content

/-! ## release/utils/strings.py and the version helpers of build_release.py
(lines 133-152) and release/maven/mvn.py (lines 86-104; the two copies of
guess_snapshot and find_release_version implement the same algorithm). -/

/-- Decimal value of a run of digit characters. -/
def charsToNat (g : List Char) : Nat :=
  g.foldl (fun n c => 10 * n + (c.toNat - Char.toNat '0')) 0

/-- Maximal runs of consecutive digit characters, in order: the semantics of
re.findall of a digit-run pattern. cur accumulates the current run reversed. -/
def groupDigitsAcc (cur : List Char) : List Char → List (List Char)
  | [] => if cur.isEmpty then [] else [cur.reverse]
  | c :: cs =>
    if c.isDigit then groupDigitsAcc (c :: cur) cs
    else if cur.isEmpty then groupDigitsAcc [] cs
    else cur.reverse :: groupDigitsAcc [] cs

/-- strings.split_version_to_digits (strings.py lines 26-27): the list of
numeric components of a version string, one per maximal digit run. -/
def split_version_to_digits (version : List Char) : List Nat :=
  (groupDigitsAcc [] version).map charsToNat

/-- Decimal digits of a natural number, as Python str of an int. -/
def natChars (n : Nat) : List Char := (Nat.repr n).toList

/-- guess_snapshot (build_release.py lines 134-138, mvn.py lines 87-91):
source and destination join the first three numeric components with dots,
the last one incremented in destination, and the result is
version.replace(source, destination). Python indexes digits[0], digits[1],
digits[2] directly, so with fewer than three digit runs the function raises
IndexError, embedded as none. -/
def guess_snapshot (version : List Char) : Option (List Char) :=
  match split_version_to_digits version with
  | d0 :: d1 :: d2 :: _ =>
    let source := natChars d0 ++ ('.' :: natChars d1) ++ ('.' :: natChars d2)
    let destination := natChars d0 ++ ('.' :: natChars d1) ++ ('.' :: natChars (d2 + 1))
    some (listReplace source destination version)
  | _ => none

/-- Largest index i of s such that pat starts at i (none if pat nowhere
occurs): the end position chosen by a greedy dot-plus group followed by the
literal pat. -/
def lastStart (pat : List Char) : List Char → Option Nat
  | [] => if pat.isPrefixOf [] then some 0 else none
  | c :: cs =>
    match lastStart pat cs with
    | some i => some (i + 1)
    | none => if pat.isPrefixOf (c :: cs) then some 0 else none

/-- re.search of the version-snapshot pattern of find_release_version
(build_release.py line 149): the match starts at the leftmost occurrence of
the opening version tag from which a non-empty greedy group can reach a
closing snapshot suffix; the group is everything up to the last such suffix.
Returns the group, or none when the line does not match. -/
def searchVersionSnapshot : List Char → Option (List Char)
  | [] => none
  | c :: cs =>
    if (strL "<version>").isPrefixOf (c :: cs) then
      match lastStart (strL "-SNAPSHOT</version>") ((c :: cs).drop 9) with
      | some k =>
        if 1 ≤ k then some (((c :: cs).drop 9).take k) else searchVersionSnapshot cs
      | none => searchVersionSnapshot cs
    else searchVersionSnapshot cs

/-- find_release_version (build_release.py lines 145-152, mvn.py lines
98-104): scan the pom lines for the first snapshot version tag and return the
version inside it; raise RuntimeError when no line matches. The extra
git checkout done by the build_release.py copy before reading the file is part
of the orchestrator model below. -/
def find_release_version (src_branch : String) (pom : List (List Char)) :
    Except String (List Char) :=
  match pom.findSome? searchVersionSnapshot with
  | some v => Except.ok v
  | none => Except.error ("Could not find release version in branch " ++ src_branch)

/-! ## Externally visible effects of the dry-run gated operations -/

/-- One externally visible action of the tool. -/
inductive Effect where
  | cmd (c : String)
  | println (msg : String)
  | fileWrite (path content : String)
  | smtpSend (server sender rcpt msg : String)
  deriving DecidableEq, Repr

/-- Whether an effect is a console print. -/
def Effect.isPrint : Effect → Bool
  | .println _ => true
  | _ => false

/-- git.release_branch (git.py lines 93-94). -/
def release_branch (branchsource version : String) : String :=
  "release_branch_" ++ branchsource ++ "_" ++ version

/-- git.push (git.py lines 85-90): outside dry-run, push branch and master and
then the tag; in dry-run, only print the skipped push. -/
def push (remote src_branch release_version : String) (dry_run : Bool) : List Effect :=
  if !dry_run then
    [Effect.cmd ("git push " ++ remote ++ " " ++ src_branch ++ " master"),
     Effect.cmd ("git push " ++ remote ++ " v" ++ release_version)]
  else
    [Effect.println ("  dryrun [True] -- skipping push to remote " ++ remote ++ " "
      ++ src_branch ++ " master")]

/-- publish_artifacts (build_release.py lines 233-241; the copy in
release/aws/s3.py lines 28-35 is identical up to the path of the upload
helper): per artifact, in dry-run only print the skip notice, otherwise print
and run the S3 upload command. -/
def publish_artifacts (artifacts : List String) (base : String) (dry_run : Bool) :
    List Effect :=
  (artifacts.map fun artifact =>
    if dry_run then
      [Effect.println ("Skip Uploading " ++ artifact ++ " to Amazon S3 in " ++ base)]
    else
      [Effect.println ("Uploading " ++ artifact ++ " to Amazon S3"),
       Effect.cmd ("python upload-s3.py --file " ++ artifact ++ " --path " ++ base)]).flatten

/-- announcement.send_email (announcement.py lines 174-192): the rendered
message (msg, with its From and To headers already set) is always written to
the local file; only when mail is enabled and not in dry-run is it also sent
over SMTP, otherwise the generated email is printed. -/
def send_email (msg : String) (dry_run mail : Bool)
    (sender rcpt smtp_server file : String) : List Effect :=
  Effect.fileWrite file msg ::
    (if mail && !dry_run then
      [Effect.smtpSend smtp_server sender rcpt msg]
    else
      [Effect.println ("generated email: open " ++ file), Effect.println msg])

/-! ## release/announcement/announcement.py rendering -/

/-- A GitHub issue as used by the announcement formatter. -/
structure Issue where
  number : Nat
  title : List Char
  html_url : List Char
  deriving DecidableEq, Repr

/-- announcement.format_issues_plain (announcement.py lines 196-204): a title
header line followed by one entry per issue, empty when there are no issues. -/
def format_issues_plain (issues : List Issue) (title : List Char) : List Char :=
  if issues.isEmpty then []
  else
    title ++ strL ":\n" ++
      (issues.map fun i =>
        strL " * [" ++ natChars i.number ++ strL "] - " ++ i.title ++ strL " ("
          ++ i.html_url ++ strL ")\n").flatten

/-- announcement.format_issues_html (announcement.py lines 208-217). -/
def format_issues_html (issues : List Issue) (title : List Char) : List Char :=
  if issues.isEmpty then []
  else
    strL "<h2>" ++ title ++ strL "</h2>\n<ul>\n" ++
      (issues.map fun i =>
        strL "<li>[<a href=\"" ++ i.html_url ++ strL "\">" ++ natChars i.number
          ++ strL "</a>] - " ++ i.title ++ strL "\n").flatten ++
      strL "</ul>\n"

/-- Modelled from the spec: the default plain-text email template
(release/announcement/templates/email_template.txt) is not under src/. Per the
specification the template renders the artifact description and substitutes
the empty-message notice and the four category sections; the subject header
text is the one built at announcement.py line 138. -/
def email_template_txt (release_version artifact_id artifact_name artifact_description
    project_url empty_message issues_bug issues_update issues_new issues_doc :
    List Char) : List Char :=
  strL "[ANN] " ++ artifact_name ++ strL " " ++ release_version ++ strL " released\n\n"
    ++ artifact_description ++ strL "\n\n" ++ strL "Artifact: " ++ artifact_id
    ++ strL "\nProject: " ++ project_url ++ strL "\n\n"
    ++ empty_message ++ issues_bug ++ issues_update ++ issues_new ++ issues_doc
    ++ strL "\n-- The Elasticsearch team\n"

/-- Modelled from the spec: the default html email template, structured like
the plain one. -/
def email_template_html (release_version artifact_id artifact_name artifact_description
    project_url empty_message issues_bug issues_update issues_new issues_doc :
    List Char) : List Char :=
  strL "<p>[ANN] " ++ artifact_name ++ strL " " ++ release_version ++ strL " released</p>\n"
    ++ strL "<p>" ++ artifact_description ++ strL "</p>\n<p>" ++ artifact_id
    ++ strL " - " ++ project_url ++ strL "</p>\n"
    ++ empty_message ++ issues_bug ++ issues_update ++ issues_new ++ issues_doc
    ++ strL "\n<p>The Elasticsearch team</p>\n"

/-- announcement.prepare_email (announcement.py lines 81-171): format each
non-empty category with its fixed title, count the total number of issues,
substitute the fixed no-issue notice exactly when the total is zero, and
render the plain and html templates. Returns the two rendered parts. -/
def prepare_email (artifact_id release_version artifact_name artifact_description
    project_url : List Char)
    (issues_bug issues_update issues_new issues_doc : List Issue) :
    List Char × List Char :=
  let plain_issues_bug := if !issues_bug.isEmpty then format_issues_plain issues_bug (strL "Fix") else []
  let html_issues_bug := if !issues_bug.isEmpty then format_issues_html issues_bug (strL "Fix") else []
  let plain_issues_update := if !issues_update.isEmpty then format_issues_plain issues_update (strL "Update") else []
  let html_issues_update := if !issues_update.isEmpty then format_issues_html issues_update (strL "Update") else []
  let plain_issues_new := if !issues_new.isEmpty then format_issues_plain issues_new (strL "New") else []
  let html_issues_new := if !issues_new.isEmpty then format_issues_html issues_new (strL "New") else []
  let plain_issues_doc := if !issues_doc.isEmpty then format_issues_plain issues_doc (strL "Doc") else []
  let html_issues_doc := if !issues_doc.isEmpty then format_issues_html issues_doc (strL "Doc") else []
  let total_issues := issues_bug.length + issues_update.length + issues_new.length
    + issues_doc.length
  let plain_empty_message :=
    if total_issues > 0 then [] else strL "No issue listed for this release"
  let html_empty_message :=
    if total_issues > 0 then [] else strL "<p>No issue listed for this release</p>"
  (email_template_txt release_version artifact_id artifact_name artifact_description
      project_url plain_empty_message plain_issues_bug plain_issues_update
      plain_issues_new plain_issues_doc,
   email_template_html release_version artifact_id artifact_name artifact_description
      project_url html_empty_message html_issues_bug html_issues_update
      html_issues_new html_issues_doc)

/-! ## The release orchestrator (module-level code of build_release.py,
lines 427-539)

The repository is modelled by the heads of its branches, its tags and the
checked-out branch; commits produce fresh synthetic hashes from a counter.
External commands succeed unless a failure is injected at their site; an
injected failure raises RuntimeError, exactly as run.run does on a non-zero
exit. Python exceptions are PyError values; EStateM keeps the state reached
at the raise point, as Python does. -/

/-- An embedded Python exception. -/
inductive PyError where
  | runtimeError (msg : String)
  | nameError (name : String)
  | typeError (msg : String)
  deriving DecidableEq, Repr

/-- Version-control state visible to the orchestrator. -/
structure RepoState where
  heads : List (String × String)
  current : String
  tags : List String
  counter : Nat
  deriving DecidableEq, Repr

/-- How the process ends. -/
inductive Outcome where
  | success
  | exited (code : Int)
  | crashed (e : PyError)
  deriving DecidableEq, Repr

/-- Whether the run reached the success flag at build_release.py line 513. -/
def Outcome.isSuccess : Outcome → Bool
  | .success => true
  | _ => false

/-- The orchestrator monad: Python control flow with the repository state. -/
abbrev RelM := EStateM PyError RepoState

/-- Sites of the fallible steps of the pipeline at which an external failure
can be injected. The first three belong to the first try block (lines
427-439), the rest to the second try block (lines 442-513) up to line 471. -/
inductive Site where
  | mvnClean
  | pullMaster
  | pullSrc
  | updatePom
  | updateReadme
  | gitAddFiles
  | commitRelease
  | githubCheck
  | mvnBuild
  | findArtifact
  | checksums
  deriving DecidableEq, Repr, Fintype

/-- Whether the site lies in the second try block (after branch creation). -/
def Site.inSecondTry : Site → Bool
  | .mvnClean => false
  | .pullMaster => false
  | .pullSrc => false
  | _ => true

/-- Replace the head hash recorded for branch b. -/
def updateHead (heads : List (String × String)) (b h : String) :
    List (String × String) :=
  heads.map fun e => if e.1 == b then (e.1, h) else e

/-- git.get_head_hash (git.py lines 23-24): hash of the checked-out branch. -/
def getHeadHash : RelM String := do
  let s ← get
  pure ((s.heads.lookup s.current).getD "")

/-- git.checkout (git.py lines 74-75): fails when the branch does not exist. -/
def gitCheckout (b : String) : RelM Unit := do
  let s ← get
  match s.heads.lookup b with
  | some _ => set { s with current := b }
  | none => throw (.runtimeError ("git checkout " ++ b))

/-- git checkout -b (second command of git.create_release_branch, git.py line
44): fails when the branch already exists, otherwise creates it at the head of
the checked-out branch and switches to it. -/
def gitCheckoutNew (b : String) : RelM Unit := do
  let s ← get
  match s.heads.lookup b with
  | some _ => throw (.runtimeError ("git checkout -b " ++ b))
  | none =>
    let h := (s.heads.lookup s.current).getD ""
    set { s with heads := (b, h) :: s.heads, current := b }

/-- git reset --hard hash (build_release.py lines 518, 520, 529, 531): moves
the head of the checked-out branch to the given hash. -/
def gitResetHard (h : String) : RelM Unit := do
  let s ← get
  set { s with heads := updateHead s.heads s.current h }

/-- A git commit (git.py commit_release, commit_master, commit_snapshot):
the head of the checked-out branch becomes a fresh hash. -/
def gitCommit : RelM Unit := do
  let s ← get
  set { s with heads := updateHead s.heads s.current ("commit" ++ Nat.repr s.counter),
               counter := s.counter + 1 }

/-- git.tag_release (git.py lines 69-70): fails if the tag already exists. -/
def gitTagRelease (t : String) : RelM Unit := do
  let s ← get
  if s.tags.contains t then throw (.runtimeError ("git tag -a " ++ t))
  else set { s with tags := t :: s.tags }

/-- git tag -d (build_release.py lines 522, 532): fails when the tag does not
exist. -/
def gitTagDelete (t : String) : RelM Unit := do
  let s ← get
  if s.tags.contains t then set { s with tags := s.tags.erase t }
  else throw (.runtimeError ("git tag -d " ++ t))

/-- git branch -D (build_release.py lines 535-536): fails when the branch does
not exist. -/
def gitBranchDelete (b : String) : RelM Unit := do
  let s ← get
  match s.heads.lookup b with
  | some _ => set { s with heads := s.heads.filter fun e => e.1 != b }
  | none => throw (.runtimeError ("git branch -D " ++ b))

/-- git.merge (git.py lines 79-81): checkout of the target branch, then the
line run(git merge ...) applies the imported module object run instead of the
function run.run, which raises TypeError in Python. -/
def gitMerge (src_branch : String) : RelM Unit := do
  gitCheckout src_branch
  throw (.typeError "module run is not callable")

/-- An external step at an injectable failure site: raises RuntimeError when
the failure is injected there, otherwise performs the step. -/
def inj (inject : Option Site) (site : Site) (act : RelM Unit) : RelM Unit :=
  if inject == some site then throw (.runtimeError "injected failure") else act

/-- Python except RuntimeError: pass (build_release.py lines 521-524). -/
def catchRuntime (act : RelM Unit) : RelM Unit :=
  tryCatch act fun e =>
    match e with
    | .runtimeError _ => pure ()
    | e => throw e

/-- git.create_release_branch (git.py lines 41-44): checkout the source
branch, rebase it from the remote (an external command, the given injection
site), then create the release branch. -/
def create_release_branch (inject : Option Site) (pullSite : Site)
    (src_branch release : String) : RelM Unit := do
  gitCheckout src_branch
  inj inject pullSite (pure ())
  gitCheckoutNew (release_branch src_branch release)

/-- The first try block (build_release.py lines 427-436): capture the two
checkpoint hashes, run mvn clean, create the two release branches. Returns
(master_hash, version_hash). -/
def firstTry (inject : Option Site) (src_branch release : String) :
    RelM (String × String) := do
  gitCheckout "master"
  let master_hash ← getHeadHash
  gitCheckout src_branch
  let version_hash ← getHeadHash
  inj inject .mvnClean (pure ())
  create_release_branch inject .pullMaster "master" release
  create_release_branch inject .pullSrc src_branch release
  pure (master_hash, version_hash)

/-- The second try block (build_release.py lines 442-513). File rewrites,
the github queries, the maven build, the artifact lookup and the checksum
generation mutate no version-control state and are modelled as injectable
no-ops; commits move the head of the checked-out branch. At line 471 the
module evaluates release_branch(master, release_version): the name
release_branch is not bound in build_release.py (only git.release_branch is),
so Python raises NameError there on every run and the remaining lines 472-513
are unreachable; they are nevertheless embedded below, after the throw, to
mirror the source. -/
def secondTry (inject : Option Site) (src_branch release : String) : RelM Unit := do
  inj inject .updatePom (pure ())
  inj inject .updateReadme (pure ())
  inj inject .gitAddFiles (pure ())
  inj inject .commitRelease gitCommit
  inj inject .githubCheck (pure ())
  inj inject .mvnBuild (pure ())
  inj inject .findArtifact (pure ())
  inj inject .checksums (pure ())
  throw (.nameError "release_branch")
  gitCheckout (release_branch "master" release)
  gitCommit
  gitMerge src_branch
  gitTagRelease ("v" ++ release)
  gitCommit
  gitMerge "master"
  pure ()

/-- The finally block (build_release.py lines 514-539). On failure: reset
master and the source branch to the checkpoint hashes and delete the tag,
swallowing a RuntimeError of the deletion; on dry-run success: the same
resets and an unguarded tag deletion. Then line 535 evaluates
release_branch(master, release_version) with the unqualified name
release_branch, raising NameError, so the two branch deletions and the final
checkout (lines 535-539, embedded after the throw) are unreachable. -/
def finallyBlock (success dry_run : Bool) (src_branch release : String)
    (master_hash version_hash : String) : RelM Unit := do
  if !success then
    gitCheckout "master"
    gitResetHard master_hash
    gitCheckout src_branch
    gitResetHard version_hash
    catchRuntime (gitTagDelete ("v" ++ release))
  else if dry_run then
    gitCheckout "master"
    gitResetHard master_hash
    gitCheckout src_branch
    gitResetHard version_hash
    gitTagDelete ("v" ++ release)
  throw (.nameError "release_branch")
  gitBranchDelete (release_branch "master" release)
  gitBranchDelete (release_branch src_branch release)
  gitCheckout src_branch

/-- The whole orchestrator run from the checkpoint capture on: the first try
block exits the process with status -1 on RuntimeError; otherwise the second
try block runs and the finally block always runs afterwards, an exception
raised by the finally block superseding one raised by the body, exactly as in
Python. -/
def mainRun (inject : Option Site) (dry_run : Bool) (src_branch release : String)
    (s0 : RepoState) : RepoState × Outcome :=
  match (firstTry inject src_branch release).run s0 with
  | .error _ s1 => (s1, .exited (-1))
  | .ok (master_hash, version_hash) s1 =>
    match (secondTry inject src_branch release).run s1 with
    | .ok _ s2 =>
      match (finallyBlock true dry_run src_branch release master_hash version_hash).run s2 with
      | .ok _ s3 => (s3, .success)
      | .error e s3 => (s3, .crashed e)
    | .error e1 s2 =>
      match (finallyBlock false dry_run src_branch release master_hash version_hash).run s2 with
      | .ok _ s3 => (s3, .crashed e1)
      | .error e2 s3 => (s3, .crashed e2)

/-- Repository state at line 427: a master branch and the source branch 1.x,
the source branch checked out (find_release_version at line 395 checked it
out), no tags. -/
def initState : RepoState :=
  { heads := [("master", "aaa1111"), ("1.x", "bbb2222")],
    current := "1.x", tags := [], counter := 0 }

deriving instance DecidableEq for Except

end ReleaseTool

namespace ReleaseTool

/-! ## Lemmas about listReplace and occurrences -/

/-- Boolean prefix test unfolded to an existential decomposition. -/
theorem isPrefixOf_ex (p s : List Char) : p.isPrefixOf s = true ↔ ∃ t, s = p ++ t := by
  induction p generalizing s with
  | nil => simp [List.isPrefixOf]
  | cons a as ih =>
    cases s with
    | nil => simp [List.isPrefixOf]
    | cons b bs =>
      simp only [List.isPrefixOf, Bool.and_eq_true, beq_iff_eq, ih, List.cons_append,
        List.cons.injEq]
      constructor
      · rintro ⟨rfl, t, rfl⟩
        exact ⟨t, rfl, rfl⟩
      · rintro ⟨t, rfl, rfl⟩
        exact ⟨rfl, t, rfl⟩

/-- The fuel argument of replAux is irrelevant as soon as it dominates the
input length. -/
theorem replAux_fuel (p r : List Char) :
    ∀ n f g s, s.length ≤ n → s.length ≤ f → s.length ≤ g →
      replAux p r f s = replAux p r g s := by
  intro n
  induction n with
  | zero =>
    intro f g s hn _ _
    have : s = [] := List.length_eq_zero.mp (Nat.le_zero.mp hn)
    subst this
    cases f <;> cases g <;> rfl
  | succ n ih =>
    intro f g s hn hf hg
    cases s with
    | nil => cases f <;> cases g <;> rfl
    | cons c cs =>
      obtain ⟨f', rfl⟩ : ∃ f', f = f' + 1 := by
        cases f with
        | zero => simp at hf
        | succ f' => exact ⟨f', rfl⟩
      obtain ⟨g', rfl⟩ : ∃ g', g = g' + 1 := by
        cases g with
        | zero => simp at hg
        | succ g' => exact ⟨g', rfl⟩
      simp only [replAux]
      by_cases h : p ≠ [] ∧ p.isPrefixOf (c :: cs) = true
      · simp only [if_pos h]
        have hplen : 0 < p.length := List.length_pos.mpr h.1
        have hd : ((c :: cs).drop p.length).length ≤ n := by
          simp only [List.length_drop, List.length_cons]
          simp only [List.length_cons] at hn
          omega
        have hdf : ((c :: cs).drop p.length).length ≤ f' := by
          simp only [List.length_drop, List.length_cons]
          simp only [List.length_cons] at hf
          omega
        have hdg : ((c :: cs).drop p.length).length ≤ g' := by
          simp only [List.length_drop, List.length_cons]
          simp only [List.length_cons] at hg
          omega
        rw [ih _ _ _ hd hdf hdg]
      · simp only [if_neg h]
        have hn' : cs.length ≤ n := by simp only [List.length_cons] at hn; omega
        have hf' : cs.length ≤ f' := by simp only [List.length_cons] at hf; omega
        have hg' : cs.length ≤ g' := by simp only [List.length_cons] at hg; omega
        rw [ih _ _ _ hn' hf' hg']

/-- Unfolding listReplace at a matching position. -/
theorem listReplace_cons_pos (p r : List Char) (c : Char) (cs : List Char)
    (hp : p ≠ []) (hpre : p.isPrefixOf (c :: cs) = true) :
    listReplace p r (c :: cs) = r ++ listReplace p r ((c :: cs).drop p.length) := by
  have hplen : 0 < p.length := List.length_pos.mpr hp
  show replAux p r (cs.length + 1) (c :: cs) = _
  simp only [replAux, if_pos (And.intro hp hpre)]
  congr 1
  exact replAux_fuel p r cs.length cs.length ((c :: cs).drop p.length).length _
    (by simp [List.length_drop]; omega) (by simp [List.length_drop]; omega) le_rfl

/-- Unfolding listReplace at a non-matching position. -/
theorem listReplace_cons_neg (p r : List Char) (c : Char) (cs : List Char)
    (h : ¬(p ≠ [] ∧ p.isPrefixOf (c :: cs) = true)) :
    listReplace p r (c :: cs) = c :: listReplace p r cs := by
  show replAux p r (cs.length + 1) (c :: cs) = _
  simp only [replAux, if_neg h]
  rfl

/-- Replacement at the very front of the input. -/
theorem listReplace_append_self (p r : List Char) (hp : p ≠ []) (x : List Char) :
    listReplace p r (p ++ x) = r ++ listReplace p r x := by
  obtain ⟨a, as, rfl⟩ : ∃ a as, p = a :: as := by
    cases p with
    | nil => exact absurd rfl hp
    | cons a as => exact ⟨a, as, rfl⟩
  rw [List.cons_append, listReplace_cons_pos _ _ _ _ hp]
  · congr 1
    rw [← List.cons_append, List.drop_left]
  · rw [← List.cons_append, isPrefixOf_ex]
    exact ⟨x, rfl⟩

/-- Occurrence test unfolded to an existential decomposition. -/
theorem occursB_ex (p s : List Char) : occursB p s = true ↔ ∃ a b, s = a ++ p ++ b := by
  induction s with
  | nil =>
    simp only [occursB, isPrefixOf_ex]
    constructor
    · rintro ⟨t, ht⟩
      exact ⟨[], t, by simp [ht]⟩
    · rintro ⟨a, b, hab⟩
      have ha : a = [] := by
        cases a with
        | nil => rfl
        | cons x xs => simp at hab
      subst ha
      exact ⟨b, by simpa using hab⟩
  | cons c cs ih =>
    simp only [occursB, Bool.or_eq_true, isPrefixOf_ex, ih]
    constructor
    · rintro (⟨t, ht⟩ | ⟨a, b, hab⟩)
      · exact ⟨[], t, by simp [ht]⟩
      · exact ⟨c :: a, b, by simp [hab]⟩
    · rintro ⟨a, b, hab⟩
      cases a with
      | nil =>
        exact Or.inl ⟨b, by simpa using hab⟩
      | cons x xs =>
        simp only [List.cons_append, List.cons.injEq] at hab
        exact Or.inr ⟨xs, b, hab.2⟩

/-- An occurrence survives prepending a character. -/
theorem occursB_cons (p : List Char) (c : Char) (cs : List Char)
    (h : occursB p cs = true) : occursB p (c :: cs) = true := by
  simp only [occursB, Bool.or_eq_true]
  exact Or.inr h

/-- An occurrence in the right part survives prepending a list. -/
theorem occursB_append_r (p a b : List Char) (h : occursB p b = true) :
    occursB p (a ++ b) = true := by
  induction a with
  | nil => simpa using h
  | cons c cs ih => exact occursB_cons p c _ ih

/-- An occurrence in the left part survives appending a list. -/
theorem occursB_append_l (p a b : List Char) (h : occursB p a = true) :
    occursB p (a ++ b) = true := by
  obtain ⟨x, y, rfl⟩ := (occursB_ex p a).mp h
  exact (occursB_ex p _).mpr ⟨x, y ++ b, by simp⟩

/-- A prefix is an occurrence. -/
theorem pfx_occursB (p s : List Char) (h : p.isPrefixOf s = true) :
    occursB p s = true := by
  obtain ⟨t, rfl⟩ := (isPrefixOf_ex p s).mp h
  exact (occursB_ex p _).mpr ⟨[], t, by simp⟩

/-- Either listReplace leaves its input unchanged, or the input splits at a
replaced occurrence of the pattern. -/
theorem listReplace_decomp (p r : List Char) (hp : p ≠ []) :
    ∀ s, listReplace p r s = s ∨
      ∃ a b, s = a ++ p ++ b ∧ listReplace p r s = a ++ r ++ listReplace p r b := by
  intro s
  induction s with
  | nil => exact Or.inl rfl
  | cons c cs ih =>
    by_cases hpre : p.isPrefixOf (c :: cs) = true
    · obtain ⟨t, ht⟩ := (isPrefixOf_ex p _).mp hpre
      refine Or.inr ⟨[], t, by simpa using ht, ?_⟩
      rw [ht, listReplace_append_self p r hp]
      simp
    · have hneg : ¬(p ≠ [] ∧ p.isPrefixOf (c :: cs) = true) := fun hc => hpre hc.2
      rw [listReplace_cons_neg p r c cs hneg]
      rcases ih with h1 | ⟨a, b, hab, hrepl⟩
      · exact Or.inl (by rw [h1])
      · exact Or.inr ⟨c :: a, b, by simp [hab], by simp [hrepl]⟩

/-- Unfolding the borderless test. -/
theorem borderlessB_spec (t : List Char) (hb : borderlessB t = true) (L : Nat)
    (h0 : 0 < L) (hL : L < t.length) : t.take L ≠ t.drop (t.length - L) := by
  have := (List.all_eq_true.mp hb) L (List.mem_range.mpr hL)
  simp only [Bool.or_eq_true, beq_iff_eq, bne_iff_ne] at this
  rcases this with h | h
  · omega
  · exact h

/-- When the replacement equals the borderless tag tagR, a tagR prefix of the
rewritten string forces a tagR occurrence in the original or a pattern
occurrence at the very front. -/
theorem pfx_replace_cases (tagRS tagR : List Char) (hRS : tagRS ≠ [])
    (hb : borderlessB tagR = true) (s : List Char)
    (h : tagR.isPrefixOf (listReplace tagRS tagR s) = true) :
    occursB tagR s = true ∨ tagRS.isPrefixOf s = true := by
  rcases listReplace_decomp tagRS tagR hRS s with h1 | ⟨a, b, hs, hrepl⟩
  · rw [h1] at h
    exact Or.inl (pfx_occursB _ _ h)
  · rw [hrepl] at h
    obtain ⟨t, ht⟩ := (isPrefixOf_ex _ _).mp h
    by_cases hlen : tagR.length ≤ a.length
    · -- the tagR prefix lies inside a, which itself is a prefix of s
      have htake : a.take tagR.length = tagR := by
        have h1 : (a ++ tagR ++ listReplace tagRS tagR b).take tagR.length
            = a.take tagR.length := by
          rw [List.append_assoc, List.take_append_of_le_length hlen]
        have h2 : (tagR ++ t).take tagR.length = tagR := List.take_left tagR t
        rw [← h1, ht, h2]
      have hpa : tagR.isPrefixOf a = true := by
        rw [isPrefixOf_ex]
        refine ⟨a.drop tagR.length, ?_⟩
        conv_lhs => rw [← List.take_append_drop tagR.length a]
        rw [htake]
      refine Or.inl ?_
      rw [hs, List.append_assoc]
      exact occursB_append_l _ _ _ (pfx_occursB _ _ hpa)
    · cases a with
      | nil =>
        refine Or.inr ?_
        rw [isPrefixOf_ex]
        exact ⟨b, by simpa using hs⟩
      | cons x xs =>
        exfalso
        have hAlen : (x :: xs).length ≤ tagR.length := by omega
        have heq : tagR = (x :: xs) ++ tagR.take (tagR.length - (x :: xs).length) := by
          have h1 : ((x :: xs) ++ tagR ++ listReplace tagRS tagR b).take tagR.length
              = (x :: xs) ++ tagR.take (tagR.length - (x :: xs).length) := by
            rw [List.append_assoc, ← List.append_assoc, List.take_append_of_le_length
              (by simp; omega), List.take_append_eq_append_take,
              List.take_of_length_le hAlen]
          have h2 : (tagR ++ t).take tagR.length = tagR := List.take_left tagR t
          rw [← h1, ht, h2]
        have hdrop : tagR.drop (x :: xs).length
            = tagR.take (tagR.length - (x :: xs).length) := by
          conv_lhs => rw [heq]
          rw [List.drop_left]
        have h0 : 0 < tagR.length - (x :: xs).length := by
          simp only [List.length_cons] at *
          omega
        have hLlt : tagR.length - (x :: xs).length < tagR.length := by
          simp only [List.length_cons] at *
          omega
        have hAL : tagR.length - (tagR.length - (x :: xs).length) = (x :: xs).length := by
          omega
        exact borderlessB_spec tagR hb (tagR.length - (x :: xs).length) h0 hLlt
          (by rw [hAL]; exact hdrop.symm)

/-- A string without any occurrence of the pattern is left unchanged. -/
theorem listReplace_no_occ (p r : List Char) :
    ∀ s, occursB p s = false → listReplace p r s = s := by
  intro s
  induction s with
  | nil => intro _; rfl
  | cons c cs ih =>
    intro hocc
    simp only [occursB, Bool.or_eq_false_iff] at hocc
    rw [listReplace_cons_neg p r c cs (fun hc => by simp [hocc.1] at hc)]
    rw [ih hocc.2]

/-- Chained replacement: strip snapshot then add snapshot on a single line.
When the intermediate tag tagR is borderless and absent from the line, the
two passes compose to the direct replacement of the snapshot pattern. -/
theorem replace_roundtrip_line (tagRS tagR tagS : List Char) (hRS : tagRS ≠ [])
    (hR : tagR ≠ []) (hb : borderlessB tagR = true) :
    ∀ s, occursB tagR s = false →
      listReplace tagR tagS (listReplace tagRS tagR s) = listReplace tagRS tagS s := by
  suffices h : ∀ n s, s.length ≤ n → occursB tagR s = false →
      listReplace tagR tagS (listReplace tagRS tagR s) = listReplace tagRS tagS s by
    intro s
    exact h s.length s le_rfl
  intro n
  induction n with
  | zero =>
    intro s hlen _
    have : s = [] := List.length_eq_zero.mp (Nat.le_zero.mp hlen)
    subst this
    rfl
  | succ n ih =>
    intro s hlen hocc
    by_cases hpre : tagRS.isPrefixOf s = true
    · obtain ⟨t, rfl⟩ := (isPrefixOf_ex _ _).mp hpre
      rw [listReplace_append_self tagRS tagR hRS, listReplace_append_self tagR tagS hR,
        listReplace_append_self tagRS tagS hRS]
      congr 1
      have hRSlen : 0 < tagRS.length := List.length_pos.mpr hRS
      have ht : t.length ≤ n := by
        simp only [List.length_append] at hlen
        omega
      have hocct : occursB tagR t = false := by
        by_contra hc
        rw [occursB_append_r tagR tagRS t (by simpa using hc)] at hocc
        exact Bool.true_eq_false.mp hocc
      exact ih t ht hocct
    · cases s with
      | nil => rfl
      | cons c cs =>
        have hneg : ¬(tagRS ≠ [] ∧ tagRS.isPrefixOf (c :: cs) = true) := fun hc => hpre hc.2
        rw [listReplace_cons_neg tagRS tagR c cs hneg]
        have houter : ¬(tagR ≠ [] ∧
            tagR.isPrefixOf (c :: listReplace tagRS tagR cs) = true) := by
          rintro ⟨_, hp⟩
          rw [← listReplace_cons_neg tagRS tagR c cs hneg] at hp
          rcases pfx_replace_cases tagRS tagR hRS hb (c :: cs) hp with hcase | hcase
          · rw [hcase] at hocc
            exact Bool.true_eq_false.mp hocc
          · exact hpre hcase
        rw [listReplace_cons_neg tagR tagS c _ houter]
        rw [listReplace_cons_neg tagRS tagS c cs hneg]
        have hcs : cs.length ≤ n := by
          simp only [List.length_cons] at hlen
          omega
        have hocccs : occursB tagR cs = false := by
          by_contra hc
          rw [occursB_cons tagR c cs (by simpa using hc)] at hocc
          exact Bool.true_eq_false.mp hocc
        rw [ih cs hcs hocccs]

/-- Replacement of an explicitly placed occurrence: when no occurrence of the
pattern starts inside the leading segment or overlaps out of it, the pattern
occurrence right after the segment is replaced and scanning continues behind
it. -/
theorem listReplace_mid (p r : List Char) (hp : p ≠ []) :
    ∀ a b, occursB p (a ++ p.dropLast) = false →
      listReplace p r (a ++ p ++ b) = a ++ r ++ listReplace p r b := by
  intro a
  induction a with
  | nil =>
    intro b _
    simpa using listReplace_append_self p r hp b
  | cons c a' ih =>
    intro b hocc
    rw [List.cons_append] at hocc
    have hnopfx : ¬ p.isPrefixOf ((c :: a') ++ p ++ b) = true := by
      intro hpfx
      obtain ⟨t, ht⟩ := (isPrefixOf_ex _ _).mp hpfx
      have hlenA : 0 < (c :: a').length := by simp
      have hplen : 0 < p.length := List.length_pos.mpr hp
      have hsplit : (c :: a') ++ p ++ b
          = ((c :: a') ++ p.dropLast) ++ ([p.getLast hp] ++ b) := by
        conv_lhs => rw [← List.dropLast_append_getLast hp]
        simp [List.append_assoc]
      have hlen2 : p.length ≤ ((c :: a') ++ p.dropLast).length := by
        simp [List.length_dropLast]
        omega
      have htake : ((c :: a') ++ p ++ b).take p.length
          = ((c :: a') ++ p.dropLast).take p.length := by
        rw [hsplit, List.take_append_of_le_length hlen2]
      have h2 : (p ++ t).take p.length = p := List.take_left p t
      have hpfx2 : p.isPrefixOf ((c :: a') ++ p.dropLast) = true := by
        rw [isPrefixOf_ex]
        refine ⟨((c :: a') ++ p.dropLast).drop p.length, ?_⟩
        conv_lhs => rw [← List.take_append_drop p.length ((c :: a') ++ p.dropLast)]
        rw [← htake, ht, h2]
      have hocc2 := pfx_occursB _ _ hpfx2
      rw [List.cons_append] at hocc2
      rw [hocc2] at hocc
      exact Bool.true_eq_false.mp hocc
    have hneg : ¬(p ≠ [] ∧ p.isPrefixOf (c :: (a' ++ p ++ b)) = true) := by
      rintro ⟨_, hc⟩
      exact hnopfx (by simpa using hc)
    calc listReplace p r ((c :: a') ++ p ++ b)
        = c :: listReplace p r (a' ++ p ++ b) := by
          rw [← listReplace_cons_neg p r c (a' ++ p ++ b) hneg]
          simp
      _ = c :: (a' ++ r ++ listReplace p r b) := by
          rw [ih b (by
            by_contra hc
            rw [occursB_cons p c (a' ++ p.dropLast) (by simpa using hc)] at hocc
            exact Bool.true_eq_false.mp hocc)]
      _ = (c :: a') ++ r ++ listReplace p r b := by simp

/-! ## Lemmas about process_file -/

/-- The rewrite loop computes the mapped lines and the any-changed flag. -/
theorem processLines_eq (cb : List Char → List Char) (ls : List (List Char)) :
    processLines cb ls = (ls.map cb, ls.any fun l => cb l != l) := by
  induction ls with
  | nil => rfl
  | cons l ls ih => simp [processLines, ih]

/-- Mapping a function that fixes every element of a list is the identity. -/
theorem map_fix_eq_self (cb : List Char → List Char) (ls : List (List Char))
    (h : ∀ l ∈ ls, cb l = l) : ls.map cb = ls := by
  induction ls with
  | nil => rfl
  | cons l ls ih =>
    simp only [List.map_cons, h l (by simp), List.cons.injEq, true_and]
    exact ih fun x hx => h x (by simp [hx])

/-- In both branches of process_file the resulting file content is the
line-wise image of the callback: when no line changed, the image is the
original content. -/
theorem process_file_content (lines : List (List Char)) (cb : List Char → List Char) :
    (process_file lines cb).content = lines.map cb := by
  unfold process_file
  rw [processLines_eq]
  by_cases h : (lines.any fun l => cb l != l) = true
  · simp [h]
  · simp only [Bool.not_eq_true] at h
    simp only [h, if_neg Bool.false_ne_true]
    refine (map_fix_eq_self cb lines ?_).symm
    intro l hl
    by_contra hc
    have : (lines.any fun l => cb l != l) = true :=
      List.any_eq_true.mpr ⟨l, hl, bne_iff_ne.mpr hc⟩
    rw [this] at h
    exact Bool.true_eq_false.mp h

/-- The released version tag is never the empty string. -/
theorem verTag_ne_nil (release : List Char) : verTag release ≠ [] := by
  have h : strL "<version>" = '<' :: strL "version>" := rfl
  rw [verTag, h]
  simp

/-- The snapshot version tag is never the empty string. -/
theorem verTagSnap_ne_nil (version : List Char) : verTagSnap version ≠ [] := by
  have h : strL "<version>" = '<' :: strL "version>" := rfl
  rw [verTagSnap, h]
  simp

/-- Pointwise equal functions map lists equally. -/
theorem map_congr_mem (f g : List Char → List Char) (ls : List (List Char))
    (h : ∀ l ∈ ls, f l = g l) : ls.map f = ls.map g := by
  induction ls with
  | nil => rfl
  | cons l ls ih =>
    simp only [List.map_cons, h l (by simp), List.cons.injEq, true_and]
    exact ih fun x hx => h x (by simp [hx])

end ReleaseTool

namespace ReleaseTool

/-! ## Claim theorems -/

/-- C1. The claim states that after the checkpoint hashes are captured, any
unhandled failure makes the cleanup path reset both branches, best-effort
delete the tag, delete both temporary release branches and check out the
source branch again. The code diverges: for a failure injected at every phase
of the second try block, the finally block does reset master and the source
branch to their checkpoint hashes and swallows the failing tag deletion, but
then evaluates the unqualified name release_branch at build_release.py line
535 and dies of NameError, so neither temporary release branch is ever
deleted (both are still present below) and the final checkout at line 539
never runs (the process is on the source branch only because the reset path
checked it out at line 519). -/
theorem release_cleanup_branches_not_deleted :
    ∀ p : Site, p.inSecondTry = true →
      (mainRun (some p) true "1.x" "2.5.0" initState).2
        = Outcome.crashed (PyError.nameError "release_branch") ∧
      (mainRun (some p) true "1.x" "2.5.0" initState).1.heads.lookup "master"
        = some "aaa1111" ∧
      (mainRun (some p) true "1.x" "2.5.0" initState).1.heads.lookup "1.x"
        = some "bbb2222" ∧
      ((mainRun (some p) true "1.x" "2.5.0" initState).1.heads.lookup
        (release_branch "master" "2.5.0")).isSome = true ∧
      ((mainRun (some p) true "1.x" "2.5.0" initState).1.heads.lookup
        (release_branch "1.x" "2.5.0")).isSome = true ∧
      (mainRun (some p) true "1.x" "2.5.0" initState).1.tags = [] ∧
      (mainRun (some p) true "1.x" "2.5.0" initState).1.current = "1.x" := by
  decide

/-- Witness for C1 at the maven-build phase. -/
theorem release_cleanup_branches_not_deleted_witness :
    (mainRun (some Site.mvnBuild) true "1.x" "2.5.0" initState).2
      = Outcome.crashed (PyError.nameError "release_branch") :=
  (release_cleanup_branches_not_deleted Site.mvnBuild (by decide)).1

/-- C2. The claim states that a dry-run reaching the success state performs
the success rollback, so branch heads equal their pre-run values. In the code
no run reaches the success state at all: whatever failure is injected (or
none), the evaluation of the unqualified name release_branch at
build_release.py line 471 raises NameError first, so the dry-run success
branch of the finally block (lines 525-532) is dead code; the un-injected
dry-run below crashes with that NameError, its branch heads being restored by
the failure path instead. -/
theorem dry_run_success_unreachable :
    (∀ inject : Option Site,
      ((mainRun inject true "1.x" "2.5.0" initState).2.isSuccess) = false) ∧
    (mainRun none true "1.x" "2.5.0" initState).2
      = Outcome.crashed (PyError.nameError "release_branch") ∧
    (mainRun none true "1.x" "2.5.0" initState).1.heads.lookup "master"
      = some "aaa1111" ∧
    (mainRun none true "1.x" "2.5.0" initState).1.heads.lookup "1.x"
      = some "bbb2222" := by
  refine ⟨by decide, by decide, by decide, by decide⟩

/-- C3. The file updater applies the callback to every line, writes the
results to a temporary file, and replaces the original if and only if at
least one line was changed by the callback; otherwise the original lines are
kept; in every case the temporary file is removed, and a callback returning
every line unchanged leaves the content untouched. -/
theorem process_file_contract :
    ∀ (lines : List (List Char)) (cb : List Char → List Char),
      ((process_file lines cb).replaced = true ↔ ∃ l ∈ lines, cb l ≠ l) ∧
      ((process_file lines cb).replaced = true →
        (process_file lines cb).content = lines.map cb) ∧
      ((process_file lines cb).replaced = false →
        (process_file lines cb).content = lines) ∧
      (process_file lines cb).tmpLeft = false ∧
      ((∀ l ∈ lines, cb l = l) → (process_file lines cb).content = lines) := by
  intro lines cb
  have hrep : (process_file lines cb).replaced = (lines.any fun l => cb l != l) := by
    unfold process_file
    rw [processLines_eq]
    by_cases h : (lines.any fun l => cb l != l) = true <;> simp [h]
  refine ⟨?_, ?_, ?_, ?_, ?_⟩
  · rw [hrep, List.any_eq_true]
    constructor
    · rintro ⟨l, hl, hch⟩
      exact ⟨l, hl, bne_iff_ne.mp hch⟩
    · rintro ⟨l, hl, hch⟩
      exact ⟨l, hl, bne_iff_ne.mpr hch⟩
  · intro _
    exact process_file_content lines cb
  · intro hr
    rw [process_file_content lines cb]
    rw [hrep] at hr
    apply map_fix_eq_self
    intro l hl
    by_contra hc
    have : (lines.any fun l => cb l != l) = true :=
      List.any_eq_true.mpr ⟨l, hl, bne_iff_ne.mpr hc⟩
    rw [this] at hr
    exact Bool.true_eq_false.mp hr
  · unfold process_file
    by_cases h : (processLines cb lines).2 = true <;> simp [h]
  · intro hfix
    rw [process_file_content]
    exact map_fix_eq_self cb lines hfix

/-- Witness for C3: the identity callback leaves a concrete file unchanged. -/
theorem process_file_contract_witness :
    (process_file [strL "line"] (fun l => l)).content = [strL "line"] :=
  (process_file_contract [strL "line"] (fun l => l)).2.2.2.2 (fun _ _ => rfl)

/-- Counterexample for C4. On a manifest whose second line is a dependency
pinned at the plain release version, strip-snapshot followed by add-snapshot
does not only turn the R-SNAPSHOT version field into S-SNAPSHOT: the
dependency line is rewritten too, so the result differs from what the claim
asserts for this manifest. -/
theorem snapshot_roundtrip_rewrites_dependency :
    add_maven_snapshot (strL "2.5.0") (strL "2.5.1")
        (remove_maven_snapshot (strL "2.5.0")
          [strL "<version>2.5.0-SNAPSHOT</version>\n", strL "<version>2.5.0</version>\n"])
      = [strL "<version>2.5.1-SNAPSHOT</version>\n",
         strL "<version>2.5.1-SNAPSHOT</version>\n"] ∧
    add_maven_snapshot (strL "2.5.0") (strL "2.5.1")
        (remove_maven_snapshot (strL "2.5.0")
          [strL "<version>2.5.0-SNAPSHOT</version>\n", strL "<version>2.5.0</version>\n"])
      ≠ [strL "<version>2.5.1-SNAPSHOT</version>\n", strL "<version>2.5.0</version>\n"] := by
  refine ⟨by decide, by decide⟩

/-- C4 (amended). For every release version whose plain version tag does not
overlap itself and every manifest containing no occurrence of that plain
version tag, strip-snapshot followed by add-snapshot yields exactly the
manifest with every occurrence of the R snapshot tag replaced by the S
snapshot tag, and no other byte changed. -/
theorem snapshot_roundtrip_restricted :
    ∀ (release snapshot : List Char) (pom : List (List Char)),
      borderlessB (verTag release) = true →
      (∀ line ∈ pom, occursB (verTag release) line = false) →
      add_maven_snapshot release snapshot (remove_maven_snapshot release pom)
        = pom.map fun l => listReplace (verTagSnap release) (verTagSnap snapshot) l := by
  intro release snapshot pom hb hocc
  unfold add_maven_snapshot remove_maven_snapshot
  rw [process_file_content, process_file_content, List.map_map]
  refine map_congr_mem _ _ pom ?_
  intro line hline
  simp only [Function.comp_apply]
  exact replace_roundtrip_line (verTagSnap release) (verTag release) (verTagSnap snapshot)
    (verTagSnap_ne_nil release) (verTag_ne_nil release) hb line (hocc line hline)

/-- Witness for C4 (amended) on a concrete three-line manifest. -/
theorem snapshot_roundtrip_restricted_witness :
    add_maven_snapshot (strL "2.5.0") (strL "2.5.1")
        (remove_maven_snapshot (strL "2.5.0")
          [strL "<project>\n", strL "  <version>2.5.0-SNAPSHOT</version>\n",
           strL "</project>\n"])
      = [strL "<project>\n", strL "  <version>2.5.1-SNAPSHOT</version>\n",
         strL "</project>\n"] := by
  have h := snapshot_roundtrip_restricted (strL "2.5.0") (strL "2.5.1")
      [strL "<project>\n", strL "  <version>2.5.0-SNAPSHOT</version>\n",
       strL "</project>\n"]
      (by decide) (by decide)
  rw [h]
  decide

/-- Counterexample for C5. When the rebase of the source branch fails while
creating the second release branch, the orchestrator exits with status -1 but
the already-created master release branch is not deleted, contrary to the
claim that partially created branches are still deleted. -/
theorem branch_creation_failure_keeps_branch :
    (mainRun (some Site.pullSrc) true "1.x" "2.5.0" initState).2
      = Outcome.exited (-1) ∧
    (mainRun (some Site.pullSrc) true "1.x" "2.5.0" initState).1.heads.lookup
      (release_branch "master" "2.5.0") = some "aaa1111" := by
  refine ⟨by decide, by decide⟩

/-- C5 (amended). If creating either release branch fails, the orchestrator
prints the log and exits immediately with status -1: the checkpoint rollback
does not run (both original branch heads keep their pre-run values, no tag
exists), the source-branch release branch is never created, and any release
branch already created before the failure is left in place, not deleted (it
exists exactly when the failure hits the second branch creation). -/
theorem branch_creation_failure_exits_without_cleanup :
    ∀ p : Site, p.inSecondTry = false →
      (mainRun (some p) true "1.x" "2.5.0" initState).2 = Outcome.exited (-1) ∧
      (mainRun (some p) true "1.x" "2.5.0" initState).1.heads.lookup "master"
        = some "aaa1111" ∧
      (mainRun (some p) true "1.x" "2.5.0" initState).1.heads.lookup "1.x"
        = some "bbb2222" ∧
      (mainRun (some p) true "1.x" "2.5.0" initState).1.heads.lookup
        (release_branch "1.x" "2.5.0") = none ∧
      ((mainRun (some p) true "1.x" "2.5.0" initState).1.heads.lookup
        (release_branch "master" "2.5.0")).isSome = (p == Site.pullSrc) ∧
      (mainRun (some p) true "1.x" "2.5.0" initState).1.tags = [] := by
  decide

/-- Witness for C5 (amended) at the first rebase failure. -/
theorem branch_creation_failure_exits_without_cleanup_witness :
    (mainRun (some Site.pullMaster) true "1.x" "2.5.0" initState).2
      = Outcome.exited (-1) :=
  (branch_creation_failure_exits_without_cleanup Site.pullMaster (by decide)).1

/-- C6. With the dry-run flag set, push issues no git command and only prints
the skipped push, publish produces only console prints and uploads nothing,
and send transmits nothing over SMTP while still writing the rendered email
to the local file. -/
theorem dry_run_gates_external_effects :
    (∀ remote src_branch release_version : String,
      push remote src_branch release_version true
        = [Effect.println ("  dryrun [True] -- skipping push to remote " ++ remote ++ " "
            ++ src_branch ++ " master")]) ∧
    (∀ (artifacts : List String) (base : String),
      (publish_artifacts artifacts base true).all Effect.isPrint = true) ∧
    (∀ (msg : String) (mail : Bool) (sender rcpt smtp_server file : String),
      send_email msg true mail sender rcpt smtp_server file
        = [Effect.fileWrite file msg, Effect.println ("generated email: open " ++ file),
           Effect.println msg]) := by
  refine ⟨fun _ _ _ => rfl, ?_, ?_⟩
  · intro artifacts base
    rw [List.all_eq_true]
    intro e he
    simp only [publish_artifacts, List.mem_flatten, List.mem_map] at he
    obtain ⟨l, ⟨a, ha, rfl⟩, hel⟩ := he
    simp at hel
    subst hel
    rfl
  · intro msg mail sender rcpt smtp_server file
    simp [send_email, Bool.and_false]

set_option maxRecDepth 10000 in
/-- C7. Given a pom whose version field is 2.5.0-SNAPSHOT, the release-version
extractor returns 2.5.0; given a pom with no snapshot version line it raises
the could-not-find error; and the next-snapshot guesser maps 2.5.0 to 2.5.1
by incrementing the last of the three numeric components. -/
theorem version_parsing_contract :
    find_release_version "1.x"
        [strL "<project>\n", strL "  <version>2.5.0-SNAPSHOT</version>\n",
         strL "</project>\n"]
      = Except.ok (strL "2.5.0") ∧
    find_release_version "1.x"
        [strL "<project>\n", strL "  <version>2.5.0</version>\n", strL "</project>\n"]
      = Except.error "Could not find release version in branch 1.x" ∧
    guess_snapshot (strL "2.5.0") = some (strL "2.5.1") := by
  refine ⟨by decide, by decide, by decide⟩

set_option maxRecDepth 10000 in
/-- C8. With zero issues in all four categories the rendered plain message
contains the fixed no-issue notice and none of the category headers, and the
html part contains the html notice; with exactly one Fix issue the rendered
plain message is the template with exactly the one-entry Fix section and all
other sections empty, and at a concrete issue the message contains exactly
one Fix header, exactly one entry marker and no other category header. -/
theorem announcement_rendering_contract :
    occursB (strL "No issue listed for this release")
        ((prepare_email (strL "plug") (strL "2.5.0") (strL "My Plugin") (strL "A plugin")
          (strL "http://example/") [] [] [] []).1) = true ∧
    occursB (strL "Fix:")
        ((prepare_email (strL "plug") (strL "2.5.0") (strL "My Plugin") (strL "A plugin")
          (strL "http://example/") [] [] [] []).1) = false ∧
    occursB (strL "Update:")
        ((prepare_email (strL "plug") (strL "2.5.0") (strL "My Plugin") (strL "A plugin")
          (strL "http://example/") [] [] [] []).1) = false ∧
    occursB (strL "New:")
        ((prepare_email (strL "plug") (strL "2.5.0") (strL "My Plugin") (strL "A plugin")
          (strL "http://example/") [] [] [] []).1) = false ∧
    occursB (strL "Doc:")
        ((prepare_email (strL "plug") (strL "2.5.0") (strL "My Plugin") (strL "A plugin")
          (strL "http://example/") [] [] [] []).1) = false ∧
    occursB (strL "<p>No issue listed for this release</p>")
        ((prepare_email (strL "plug") (strL "2.5.0") (strL "My Plugin") (strL "A plugin")
          (strL "http://example/") [] [] [] []).2) = true ∧
    (∀ (n : Nat) (title url : List Char),
      (prepare_email (strL "plug") (strL "2.5.0") (strL "My Plugin") (strL "A plugin")
          (strL "http://example/") [⟨n, title, url⟩] [] [] []).1
        = email_template_txt (strL "2.5.0") (strL "plug") (strL "My Plugin")
            (strL "A plugin") (strL "http://example/") []
            (strL "Fix" ++ strL ":\n" ++ (strL " * [" ++ natChars n ++ strL "] - "
              ++ title ++ strL " (" ++ url ++ strL ")\n"))
            [] [] []) ∧
    countOccPos (strL "Fix:")
        ((prepare_email (strL "plug") (strL "2.5.0") (strL "My Plugin") (strL "A plugin")
          (strL "http://example/") [⟨42, strL "boom", strL "http://i/42"⟩] [] [] []).1)
      = 1 ∧
    countOccPos (strL " * [")
        ((prepare_email (strL "plug") (strL "2.5.0") (strL "My Plugin") (strL "A plugin")
          (strL "http://example/") [⟨42, strL "boom", strL "http://i/42"⟩] [] [] []).1)
      = 1 ∧
    countOccPos (strL "Update:")
        ((prepare_email (strL "plug") (strL "2.5.0") (strL "My Plugin") (strL "A plugin")
          (strL "http://example/") [⟨42, strL "boom", strL "http://i/42"⟩] [] [] []).1)
      = 0 ∧
    countOccPos (strL "New:")
        ((prepare_email (strL "plug") (strL "2.5.0") (strL "My Plugin") (strL "A plugin")
          (strL "http://example/") [⟨42, strL "boom", strL "http://i/42"⟩] [] [] []).1)
      = 0 ∧
    countOccPos (strL "Doc:")
        ((prepare_email (strL "plug") (strL "2.5.0") (strL "My Plugin") (strL "A plugin")
          (strL "http://example/") [⟨42, strL "boom", strL "http://i/42"⟩] [] [] []).1)
      = 0 := by
  refine ⟨by decide, by decide, by decide, by decide, by decide, by decide, ?_,
    by decide, by decide, by decide, by decide, by decide⟩
  intro n title url
  simp [prepare_email, format_issues_plain]

/-- C9. guess_snapshot indexes the first three numeric components of the
version string: for every version string with at least three digit runs it
returns a value, and for every version string with fewer than three digit
runs it raises IndexError (embedded as none) instead of returning a guess. -/
theorem guess_snapshot_digit_groups :
    ∀ version : List Char,
      (3 ≤ (split_version_to_digits version).length →
        (guess_snapshot version).isSome = true) ∧
      ((split_version_to_digits version).length < 3 → guess_snapshot version = none) := by
  intro version
  rcases hd : split_version_to_digits version with _ | ⟨d0, rest0⟩
  · simp [guess_snapshot, hd]
  rcases rest0 with _ | ⟨d1, rest1⟩
  · simp [guess_snapshot, hd]
  rcases rest1 with _ | ⟨d2, rest⟩
  · simp [guess_snapshot, hd]
  · refine ⟨fun _ => ?_, fun hlt => ?_⟩
    · simp [guess_snapshot, hd]
    · simp only [List.length_cons] at hlt
      omega

/-- Witness for C9 at a three-component and at a one-component version. -/
theorem guess_snapshot_digit_groups_witness :
    (guess_snapshot (strL "2.5.0")).isSome = true ∧ guess_snapshot (strL "1.x") = none :=
  ⟨(guess_snapshot_digit_groups (strL "2.5.0")).1 (by decide),
   (guess_snapshot_digit_groups (strL "1.x")).2 (by decide)⟩

/-- C10. The manifest version edits are plain per-line substring replacements
with no restriction to the version field of the project: both edits rewrite
every line of the file through the same replacement, and on a line carrying
two occurrences of the matched tag (with no further overlapping occurrence)
both occurrences are rewritten. -/
theorem replacement_all_lines_all_occurrences :
    (∀ (release : List Char) (pom : List (List Char)),
      remove_maven_snapshot release pom
        = pom.map fun l => listReplace (verTagSnap release) (verTag release) l) ∧
    (∀ (release snapshot : List Char) (pom : List (List Char)),
      add_maven_snapshot release snapshot pom
        = pom.map fun l => listReplace (verTag release) (verTagSnap snapshot) l) ∧
    (∀ (release : List Char) (a b c : List Char),
      occursB (verTagSnap release) (a ++ (verTagSnap release).dropLast) = false →
      occursB (verTagSnap release) (b ++ (verTagSnap release).dropLast) = false →
      occursB (verTagSnap release) c = false →
      listReplace (verTagSnap release) (verTag release)
          (a ++ verTagSnap release ++ (b ++ verTagSnap release ++ c))
        = a ++ verTag release ++ (b ++ verTag release ++ c)) := by
  refine ⟨?_, ?_, ?_⟩
  · intro release pom
    unfold remove_maven_snapshot
    exact process_file_content pom _
  · intro release snapshot pom
    unfold add_maven_snapshot
    exact process_file_content pom _
  · intro release a b c ha hb hc
    rw [listReplace_mid (verTagSnap release) (verTag release) (verTagSnap_ne_nil release) a
        (b ++ verTagSnap release ++ c) ha]
    rw [listReplace_mid (verTagSnap release) (verTag release) (verTagSnap_ne_nil release)
        b c hb]
    rw [listReplace_no_occ (verTagSnap release) (verTag release) c hc]

set_option maxRecDepth 10000 in
/-- Witness for C10: a line holding the snapshot tag twice, both rewritten. -/
theorem replacement_all_lines_all_occurrences_witness :
    listReplace (verTagSnap (strL "2.5.0")) (verTag (strL "2.5.0"))
        (strL "<a>" ++ verTagSnap (strL "2.5.0") ++ (strL "</a><b>"
          ++ verTagSnap (strL "2.5.0") ++ strL "</b>"))
      = strL "<a>" ++ verTag (strL "2.5.0") ++ (strL "</a><b>"
          ++ verTag (strL "2.5.0") ++ strL "</b>") :=
  (replacement_all_lines_all_occurrences).2.2 (strL "2.5.0") (strL "<a>") (strL "</a><b>")
    (strL "</b>") (by decide) (by decide) (by decide)

end ReleaseTool
